/-
Verification of the playerctl player manager
(src/playerctl/playerctl-player-manager.c).

The development shallowly embeds the manager state and its operations:
the name registry (priv->player_names), the player collection
(priv->players), the sort configuration (priv->sort_func, sort_data,
sort_notify), the NameOwnerChanged classification callback, and the
public mutators manage / move_player_to_top / set_sort_func together
with the initable init routine.  Signal emissions (g_signal_emit) and
destroy-notify invocations are made observable as an effect trace
returned alongside the new state, in emission order.
-/
import Mathlib

namespace PlayerctlMgr

/-- Modelled from the spec: the fixed well-known-name prefix used by the
naming convention (MPRIS_PREFIX, defined in playerctl-common.h, which is
not among the analysed sources).  The spec only requires a fixed nonempty
prefix; no claim depends on its exact value. -/
def mprisPrefixVal : String := "org.mpris.MediaPlayer2."

/-- A player handle (PlayerctlPlayer).  Handles are opaque reference-counted
objects compared by pointer identity in the C code; the tag field models the
object identity (its address), and player_id models the value read by
g_object_get(player, "player-id", ...). -/
structure Player where
  tag : Nat
  player_id : String
deriving DecidableEq, Repr

/-- PlayerctlNameEvent: carries the bare service identifier. -/
structure NameEvent where
  name : String
deriving DecidableEq, Repr

/-- GCompareDataFunc specialised to players: a three-way comparator taking
the opaque user data (sort_data, modelled as a Nat standing for the
pointer). -/
def SortFn : Type := Player → Player → Nat → Int

/-- One observable emission.  The four g_signal_emit kinds of the manager,
plus a record of a GDestroyNotify invocation on a sort context (the C code
never performs one, and the translation makes that observable). -/
inductive Effect where
  | nameAppeared (event : NameEvent)
  | nameVanished (event : NameEvent)
  | playerAppeared (p : Player)
  | playerVanished (p : Player)
  | contextDestroyed (ctx : Nat)
deriving DecidableEq, Repr

/-- The three string fields of an org.freedesktop.DBus NameOwnerChanged
notification, after the callback has checked the signal name and the
(sss) variant shape (malformed deliveries are dropped before this point
and are outside the claims). -/
structure Notification where
  name : String
  previous_owner : String
  new_owner : String
deriving DecidableEq, Repr

/-- The manager state: _PlayerctlPlayerManagerPrivate.  proxy is the GDBus
proxy (opaque, a Nat address), subscribed records the g_signal_connect
subscription made during init. -/
structure ManagerState where
  initted : Bool
  proxy : Option Nat
  player_names : List String
  players : List Player
  sort_func : Option SortFn
  sort_data : Nat
  sort_notify : Nat
  subscribed : Bool

/-- player_id_from_bus_name: returns NULL when the bus name is NULL, lacks
the prefix, or is no longer than the prefix (empty suffix); otherwise the
suffix after the prefix.  The byte-level g_str_has_prefix / strlen /
pointer-offset arithmetic of the C is carried out on the character list of
the string (the prefix is ASCII, so byte and character indexing agree). -/
def player_id_from_bus_name (bus_name : Option String) : Option String :=
  match bus_name with
  | none => none
  | some s =>
    if mprisPrefixVal.data.isPrefixOf s.data ∧ mprisPrefixVal.data.length < s.data.length then
      some (String.mk (s.data.drop mprisPrefixVal.data.length))
    else none

/-- g_list_find_custom over the name registry with g_strcmp0 as the
comparison: returns the data of the first node whose string equals the
key, or none. -/
def g_list_find_custom_str : List String → String → Option String
  | [], _ => none
  | x :: xs, key => if x = key then some x else g_list_find_custom_str xs key

/-- The composite g_list_find_custom + g_list_remove_link used by the
vanished branch of the callback: locate the first node whose string equals
the key and unlink exactly that node, returning its data together with the
remaining list; none when no node matches. -/
def find_remove_name : List String → String → Option (String × List String)
  | [], _ => none
  | x :: xs, key =>
    if x = key then some (x, xs)
    else
      match find_remove_name xs key with
      | none => none
      | some r => some (r.1, x :: r.2)

/-- manager_remove_managed_player_by_name: walk priv->players; at the first
player whose player-id property equals the given name, unlink that node and
emit player-vanished with the player, then stop.  Returns the new player
list and the effects emitted (in order). -/
def manager_remove_managed_player_by_name : List Player → String → List Player × List Effect
  | [], _ => ([], [])
  | p :: rest, nm =>
    if p.player_id = nm then (rest, [Effect.playerVanished p])
    else
      match manager_remove_managed_player_by_name rest nm with
      | (rest2, evs) => (p :: rest2, evs)

/-- dbus_name_owner_changed_callback, from the point where the three (sss)
strings have been extracted.  strlen(x) == 0 is translated as x = "".
Vanished branch: unlink the registry entry, run
manager_remove_managed_player_by_name on the entry data, then emit
name-vanished with the entry data.  Appeared branch: when the identifier is
not yet registered, prepend it and emit name-appeared.  Every other case
returns with no mutation and no emission. -/
def dbus_name_owner_changed_callback (st : ManagerState) (n : Notification) :
    ManagerState × List Effect :=
  match player_id_from_bus_name (some n.name) with
  | none => (st, [])
  | some player_id =>
    if n.new_owner = "" ∧ ¬ n.previous_owner = "" then
      match find_remove_name st.player_names player_id with
      | none => (st, [])
      | some entry =>
        match manager_remove_managed_player_by_name st.players entry.1 with
        | (players2, evs) =>
          ({ st with player_names := entry.2, players := players2 },
           evs ++ [Effect.nameVanished ⟨entry.1⟩])
    else if n.previous_owner = "" ∧ ¬ n.new_owner = "" then
      match g_list_find_custom_str st.player_names player_id with
      | some _ => (st, [])
      | none =>
        ({ st with player_names := player_id :: st.player_names },
         [Effect.nameAppeared ⟨player_id⟩])
    else (st, [])

/-- The identity scan at the top of playerctl_player_manager_manage_player:
true iff some node of the list is the very same handle (pointer identity). -/
def player_list_contains : List Player → Player → Bool
  | [], _ => false
  | x :: xs, p => if x = p then true else player_list_contains xs p

/-- g_list_insert_sorted_with_data: walk the list while the comparator
applied to (new element, current element, user data) is positive, then
insert the new element before the first element for which the comparison is
not positive (or at the end). -/
def g_list_insert_sorted_with_data : List Player → Player → SortFn → Nat → List Player
  | [], p, _, _ => [p]
  | x :: xs, p, f, d =>
    if f p x d ≤ 0 then p :: x :: xs
    else x :: g_list_insert_sorted_with_data xs p f d

/-- g_list_sort_with_data with a non-NULL comparator: GLib performs a
stable merge sort that takes the left element whenever the comparator
returns at most 0; List.mergeSort with the comparison (f a b d <= 0) is
exactly that stable merge sort. -/
def g_list_sort_with_data (l : List Player) (f : SortFn) (d : Nat) : List Player :=
  l.mergeSort (fun a b => f a b d ≤ 0)

/-- g_list_sort_with_data as called with a possibly-NULL comparator
(g_list_sort_real): lists of fewer than two nodes are returned before the
comparator is ever invoked; on longer lists a NULL comparator is called as
a function, which is a crash (modelled as none). -/
def g_list_sort_with_data_nullable (l : List Player) (f : Option SortFn) (d : Nat) :
    Option (List Player) :=
  match l, f with
  | [], _ => some []
  | [x], _ => some [x]
  | _ :: _ :: _, none => none
  | x :: y :: rest, some f0 => some (g_list_sort_with_data (x :: y :: rest) f0 d)

/-- playerctl_player_manager_manage_player.  A NULL player is a no-op; a
handle already present by identity is a no-op; otherwise the handle is
insertion-sorted in when a comparator is configured, else prepended, a
reference is taken, and player-appeared is emitted. -/
def playerctl_player_manager_manage_player (st : ManagerState) (player : Option Player) :
    ManagerState × List Effect :=
  match player with
  | none => (st, [])
  | some p =>
    if player_list_contains st.players p then (st, [])
    else
      match st.sort_func with
      | some f =>
        ({ st with players := g_list_insert_sorted_with_data st.players p f st.sort_data },
         [Effect.playerAppeared p])
      | none =>
        ({ st with players := p :: st.players }, [Effect.playerAppeared p])

/-- The find-and-unlink loop of playerctl_player_manager_move_player_to_top:
locate the first node that is the given handle (pointer identity) and
unlink it, returning the remaining list; none when the handle is absent. -/
def find_remove_player : List Player → Player → Option (List Player)
  | [], _ => none
  | x :: xs, p =>
    if x = p then some xs
    else
      match find_remove_player xs p with
      | none => none
      | some ys => some (x :: ys)

/-- playerctl_player_manager_move_player_to_top: when the handle is found,
unlink its node, concat it to the front, and re-sort with the comparator if
one is configured; otherwise fall through with no mutation.  No signal is
emitted either way. -/
def playerctl_player_manager_move_player_to_top (st : ManagerState) (player : Player) :
    ManagerState × List Effect :=
  match find_remove_player st.players player with
  | none => (st, [])
  | some rest =>
    match st.sort_func with
    | some f =>
      ({ st with players := g_list_sort_with_data (player :: rest) f st.sort_data }, [])
    | none => ({ st with players := player :: rest }, [])

/-- playerctl_player_manager_set_sort_func: store the three fields of the
new sort configuration unconditionally, then sort priv->players with the
new comparator via g_list_sort_with_data (whose NULL-comparator behaviour
is modelled by g_list_sort_with_data_nullable).  The previous sort_notify
is never invoked, so no contextDestroyed effect is ever produced. -/
def playerctl_player_manager_set_sort_func (st : ManagerState) (f : Option SortFn)
    (d : Nat) (nfy : Nat) : Option (ManagerState × List Effect) :=
  match g_list_sort_with_data_nullable st.players f d with
  | none => none
  | some ps =>
    some ({ st with sort_func := f, sort_data := d, sort_notify := nfy, players := ps }, [])

/-- The PROP_PLAYERS read accessor of playerctl_player_manager_get_property. -/
def get_players_property (st : ManagerState) : List Player := st.players

/-- The PROP_PLAYER_NAMES read accessor of
playerctl_player_manager_get_property. -/
def get_player_names_property (st : ManagerState) : List String := st.player_names

/-- playerctl_player_manager_initable_init.  The GDBus proxy construction
and the bulk enumeration are external collaborators (playerctl_list_players
lives in a file outside the analysed sources); their outcomes enter as
parameters, modelled from the spec as the enumerate-plus-subscribe step.
When already initted the routine returns TRUE immediately with no mutation;
either failure propagates the error and returns FALSE; on success the
registry is seeded, the callback is connected and initted is set. -/
def playerctl_player_manager_initable_init (st : ManagerState)
    (proxy_result : Except Nat Nat) (list_players_result : Except Nat (List String)) :
    ManagerState × Bool :=
  if st.initted then (st, true)
  else
    match proxy_result with
    | Except.error _ => ({ st with proxy := none }, false)
    | Except.ok prx =>
      match list_players_result with
      | Except.error _ => ({ st with proxy := some prx, player_names := [] }, false)
      | Except.ok names =>
        ({ st with proxy := some prx, player_names := names,
                   subscribed := true, initted := true }, true)

/-- One external stimulus to a ready manager: a NameOwnerChanged delivery or
a call to one of the three public mutators. -/
inductive MgrAction where
  | notify (n : Notification)
  | manage (p : Option Player)
  | moveToTop (p : Player)
  | setSort (f : Option SortFn) (d : Nat) (nfy : Nat)

/-- The state reached after one action, none when the action crashes
(NULL comparator invoked by set_sort). -/
def apply_action (st : ManagerState) : MgrAction → Option ManagerState
  | MgrAction.notify n => some (dbus_name_owner_changed_callback st n).1
  | MgrAction.manage p => some (playerctl_player_manager_manage_player st p).1
  | MgrAction.moveToTop p => some (playerctl_player_manager_move_player_to_top st p).1
  | MgrAction.setSort f d nfy =>
    match playerctl_player_manager_set_sort_func st f d nfy with
    | none => none
    | some r => some r.1

/-- Run a sequence of actions from a state, stopping at a crash. -/
def run_actions (st : ManagerState) : List MgrAction → Option ManagerState
  | [] => some st
  | a :: rest =>
    match apply_action st a with
    | none => none
    | some st1 => run_actions st1 rest

/-- Concrete handle A for the worked examples of the spec. -/
def exA : Player := ⟨0, "A"⟩

/-- Concrete handle B for the worked examples of the spec. -/
def exB : Player := ⟨1, "B"⟩

/-- Concrete handle C for the worked examples of the spec. -/
def exC : Player := ⟨2, "C"⟩

/-- The priority field of the sort-replacement example: B maps to 1,
A to 2, C to 3. -/
def examplePriority (p : Player) : Int :=
  if p.player_id = "B" then 1 else if p.player_id = "A" then 2 else 3

/-- The comparator of the sort-replacement example, ordering by
examplePriority. -/
def examplePriorityCmp : SortFn :=
  fun a b _ => examplePriority a - examplePriority b

/-- A ready manager holding handles A and B with no comparator. -/
def stAB : ManagerState :=
  ⟨true, some 0, ["A", "B"], [exA, exB], none, 0, 0, true⟩

/-- A ready manager holding handles A, B and C in that order with no
comparator. -/
def stABC : ManagerState :=
  ⟨true, some 0, ["A", "B", "C"], [exA, exB, exC], none, 0, 0, true⟩

/-- A ready manager with an empty registry and empty collection. -/
def stEmpty : ManagerState :=
  ⟨true, some 0, [], [], none, 0, 0, true⟩

/-- A ready manager tracking the single identifier spotify with no managed
players, as in the end-to-end scenario of the spec. -/
def spotifySt : ManagerState :=
  ⟨true, some 0, ["spotify"], [], none, 0, 0, true⟩

/-- A ready manager whose collection holds handle A although the registry
does not track the identifier A (possible because manage never consults
the registry). -/
def stGhost : ManagerState :=
  ⟨true, some 0, [], [exA], none, 0, 0, true⟩

/-- A sample stimulus sequence: spotify appears on the bus, handle A is
managed, handle A is moved to the top. -/
def c2ExampleActs : List MgrAction :=
  [MgrAction.notify ⟨mprisPrefixVal ++ "spotify", "", ":1.5"⟩,
   MgrAction.manage (some exA),
   MgrAction.moveToTop exA]

/-- The state reached by running c2ExampleActs from stEmpty. -/
def c2ExampleResult : ManagerState :=
  ⟨true, some 0, ["spotify"], [exA], none, 0, 0, true⟩

/-- The identity scan of manage_player finds the handle exactly when it is
a member of the list. -/
lemma player_list_contains_iff (l : List Player) (p : Player) :
    player_list_contains l p = true ↔ p ∈ l := by
  induction l with
  | nil => simp [player_list_contains]
  | cons x xs ih =>
    by_cases hx : x = p
    · simp [player_list_contains, hx]
    · simp [player_list_contains, hx, ih, (Ne.symm hx)]

/-- g_list_find_custom with g_strcmp0 finds the key exactly when it is a
member, and then returns the key itself. -/
lemma find_custom_str_eq (l : List String) (key : String) :
    g_list_find_custom_str l key = if key ∈ l then some key else none := by
  induction l with
  | nil => simp [g_list_find_custom_str]
  | cons x xs ih =>
    by_cases hx : x = key
    · simp [g_list_find_custom_str, hx]
    · simp [g_list_find_custom_str, hx, ih, (Ne.symm hx)]

/-- The find-and-unlink step of the vanished branch: the unlinked data is
the key itself and the remaining registry is the first-occurrence erase. -/
lemma find_remove_name_eq (l : List String) (key : String) :
    find_remove_name l key = if key ∈ l then some (key, l.erase key) else none := by
  induction l with
  | nil => simp [find_remove_name]
  | cons x xs ih =>
    by_cases hx : x = key
    · subst hx
      simp [find_remove_name, List.erase_cons_head]
    · rw [List.erase_cons_tail]
      · by_cases hk : key ∈ xs
        · simp [find_remove_name, hx, ih, hk, Ne.symm hx]
        · simp [find_remove_name, hx, ih, hk, Ne.symm hx]
      · simp [hx]

/-- The find-and-unlink loop of move_player_to_top: the remaining list is
the first-occurrence erase when the handle is present. -/
lemma find_remove_player_eq (l : List Player) (p : Player) :
    find_remove_player l p = if p ∈ l then some (l.erase p) else none := by
  induction l with
  | nil => simp [find_remove_player]
  | cons x xs ih =>
    by_cases hx : x = p
    · subst hx
      simp [find_remove_player, List.erase_cons_head]
    · rw [List.erase_cons_tail]
      · by_cases hk : p ∈ xs
        · simp [find_remove_player, hx, ih, hk, Ne.symm hx]
        · simp [find_remove_player, hx, ih, hk, Ne.symm hx]
      · simp [hx]

/-- The removal loop over the player collection erases the first handle
whose player-id equals the name and emits player-vanished with exactly
that handle; with no match it leaves the collection alone and emits
nothing. -/
lemma manager_remove_eq (l : List Player) (nm : String) :
    manager_remove_managed_player_by_name l nm =
      (l.eraseP (fun p => p.player_id == nm),
       match l.find? (fun p => p.player_id == nm) with
       | some p => [Effect.playerVanished p]
       | none => []) := by
  induction l with
  | nil => simp [manager_remove_managed_player_by_name]
  | cons p rest ih =>
    by_cases hp : p.player_id = nm
    · simp [manager_remove_managed_player_by_name, hp, List.eraseP_cons, List.find?]
    · have hb : (p.player_id == nm) = false := beq_eq_false_iff_ne.mpr hp
      simp [manager_remove_managed_player_by_name, hp, List.eraseP_cons, List.find?, ih, hb]

/-- g_list_insert_sorted_with_data produces a permutation of consing the
new element on. -/
lemma insert_sorted_perm (l : List Player) (p : Player) (f : SortFn) (d : Nat) :
    (g_list_insert_sorted_with_data l p f d).Perm (p :: l) := by
  induction l with
  | nil => simp [g_list_insert_sorted_with_data]
  | cons x xs ih =>
    by_cases h : f p x d ≤ 0
    · simp [g_list_insert_sorted_with_data, h]
    · simp only [g_list_insert_sorted_with_data, if_neg h]
      exact (ih.cons x).trans (List.Perm.swap p x xs)

/-- g_list_sort_with_data permutes the list. -/
lemma sort_with_data_perm (l : List Player) (f : SortFn) (d : Nat) :
    (g_list_sort_with_data l f d).Perm l :=
  List.mergeSort_perm l _

/-- A successful g_list_sort_with_data call, NULL comparator allowed,
permutes the list. -/
lemma sort_nullable_some_perm (l ps : List Player) (f : Option SortFn) (d : Nat)
    (h : g_list_sort_with_data_nullable l f d = some ps) : ps.Perm l := by
  match l, f with
  | [], _ =>
    simp [g_list_sort_with_data_nullable] at h
    simp [h.symm]
  | [x], _ =>
    simp [g_list_sort_with_data_nullable] at h
    simp [h.symm]
  | x :: y :: rest, none =>
    simp [g_list_sort_with_data_nullable] at h
  | x :: y :: rest, some f0 =>
    simp [g_list_sort_with_data_nullable] at h
    exact h ▸ sort_with_data_perm (x :: y :: rest) f0 d

/-- Claim C1: for every notification classified vanished (new-owner empty,
previous-owner non-empty) whose identifier is in the Name Registry, the
callback — synchronously, before returning — removes the identifier from
the registry, removes the first handle whose player-id equals the
identifier from the Player Collection when such a handle is present, and
its emission trace is player-vanished with that handle (when present)
followed by name-vanished carrying the identifier, in exactly that
order. -/
theorem c1_vanished_removes_then_emits_in_order
    (st : ManagerState) (n : Notification) (pid : String)
    (hid : player_id_from_bus_name (some n.name) = some pid)
    (hnew : n.new_owner = "") (hprev : n.previous_owner ≠ "")
    (hmem : pid ∈ st.player_names) :
    (dbus_name_owner_changed_callback st n).1.player_names = st.player_names.erase pid ∧
    (dbus_name_owner_changed_callback st n).1.players =
      st.players.eraseP (fun p => p.player_id == pid) ∧
    (dbus_name_owner_changed_callback st n).2 =
      (match st.players.find? (fun p => p.player_id == pid) with
       | some p => [Effect.playerVanished p, Effect.nameVanished ⟨pid⟩]
       | none => [Effect.nameVanished ⟨pid⟩]) := by
  have hcond : n.new_owner = "" ∧ ¬ n.previous_owner = "" := ⟨hnew, hprev⟩
  simp only [dbus_name_owner_changed_callback, hid, if_pos hcond,
             find_remove_name_eq, if_pos hmem, manager_remove_eq]
  cases hf : st.players.find? (fun p => p.player_id == pid) with
  | none => simp [hf]
  | some p => simp [hf]

/-- Claim C9: a vanished-classified notification whose identifier is absent
from the Name Registry leaves the whole manager state unchanged and emits
nothing, even when the Player Collection holds a handle whose player-id
equals that identifier. -/
theorem c9_vanished_untracked_is_silent
    (st : ManagerState) (n : Notification) (pid : String)
    (hid : player_id_from_bus_name (some n.name) = some pid)
    (hnew : n.new_owner = "") (hprev : n.previous_owner ≠ "")
    (hnot : pid ∉ st.player_names) :
    dbus_name_owner_changed_callback st n = (st, []) := by
  have hcond : n.new_owner = "" ∧ ¬ n.previous_owner = "" := ⟨hnew, hprev⟩
  simp only [dbus_name_owner_changed_callback, hid, if_pos hcond,
             find_remove_name_eq, if_neg hnot]

/-- Claim C4: appeared-classified notifications (previous-owner empty,
new-owner non-empty) prepend an unregistered identifier and emit
name-appeared with it, are a complete no-op for a registered identifier
(in particular the spec's spotify example), and never mutate the Player
Collection. -/
theorem c4_appeared_handling :
    (∀ (st : ManagerState) (n : Notification) (pid : String),
        player_id_from_bus_name (some n.name) = some pid →
        n.previous_owner = "" → n.new_owner ≠ "" →
        ((pid ∉ st.player_names →
            dbus_name_owner_changed_callback st n =
              ({ st with player_names := pid :: st.player_names },
               [Effect.nameAppeared ⟨pid⟩])) ∧
         (pid ∈ st.player_names →
            dbus_name_owner_changed_callback st n = (st, [])) ∧
         (dbus_name_owner_changed_callback st n).1.players = st.players)) ∧
    (∀ st : ManagerState, st.player_names = ["spotify"] →
        dbus_name_owner_changed_callback st
          ⟨mprisPrefixVal ++ "spotify", "", ":1.5"⟩ = (st, [])) := by
  constructor
  · intro st n pid hid hprev hnew
    have hvan : ¬ (n.new_owner = "" ∧ ¬ n.previous_owner = "") :=
      fun h => h.2 hprev
    have happ : n.previous_owner = "" ∧ ¬ n.new_owner = "" := ⟨hprev, hnew⟩
    refine ⟨?_, ?_, ?_⟩
    · intro hnot
      simp only [dbus_name_owner_changed_callback, hid, if_neg hvan, if_pos happ,
                 find_custom_str_eq, if_neg hnot]
    · intro hmem
      simp only [dbus_name_owner_changed_callback, hid, if_neg hvan, if_pos happ,
                 find_custom_str_eq, if_pos hmem]
    · by_cases hmem : pid ∈ st.player_names
      · simp only [dbus_name_owner_changed_callback, hid, if_neg hvan, if_pos happ,
                   find_custom_str_eq, if_pos hmem]
      · simp only [dbus_name_owner_changed_callback, hid, if_neg hvan, if_pos happ,
                   find_custom_str_eq, if_neg hmem]
  · intro st h
    have hid : player_id_from_bus_name (some (mprisPrefixVal ++ "spotify")) = some "spotify" := by
      decide
    simp [dbus_name_owner_changed_callback, hid, find_custom_str_eq, h]

/-- Claim C5: a notification that is classified neither appeared nor
vanished — a bus name without the prefix or with an empty suffix (exactly
the inputs where the identifier extraction yields none), or owner fields
both empty or both non-empty — mutates nothing and emits nothing. -/
theorem c5_irrelevant_notifications :
    (∀ s : String,
        player_id_from_bus_name (some s) = none ↔
          (¬ mprisPrefixVal.data.isPrefixOf s.data = true ∨
           s.data.length ≤ mprisPrefixVal.data.length)) ∧
    (∀ (st : ManagerState) (n : Notification),
        player_id_from_bus_name (some n.name) = none →
        dbus_name_owner_changed_callback st n = (st, [])) ∧
    (∀ (st : ManagerState) (n : Notification),
        (n.previous_owner = "" ∧ n.new_owner = "") ∨
        (n.previous_owner ≠ "" ∧ n.new_owner ≠ "") →
        dbus_name_owner_changed_callback st n = (st, [])) := by
  refine ⟨?_, ?_, ?_⟩
  · intro s
    by_cases hc : mprisPrefixVal.data.isPrefixOf s.data = true ∧
        mprisPrefixVal.data.length < s.data.length
    · simp only [player_id_from_bus_name, if_pos hc]
      simp [hc.1, hc.2, Nat.not_le.mpr hc.2]
      exact hc.2
    · simp only [player_id_from_bus_name, if_neg hc]
      simp only [true_iff, eq_self_iff_true]
      by_cases h1 : mprisPrefixVal.data.isPrefixOf s.data = true
      · right
        rcases Nat.lt_or_ge mprisPrefixVal.data.length s.data.length with h2 | h2
        · exact absurd ⟨h1, h2⟩ hc
        · exact h2
      · left; exact h1
  · intro st n h
    simp [dbus_name_owner_changed_callback, h]
  · intro st n h
    cases hpid : player_id_from_bus_name (some n.name) with
    | none => simp [dbus_name_owner_changed_callback, hpid]
    | some pid =>
      rcases h with ⟨hp, hn⟩ | ⟨hp, hn⟩
      · simp [dbus_name_owner_changed_callback, hpid, hp, hn]
      · simp [dbus_name_owner_changed_callback, hpid, hp, hn]

/-- Claim C10: once the manager is initted, running the initialization
routine again mutates nothing and returns success, whatever the bus
collaborator would have answered. -/
theorem c10_init_idempotent (st : ManagerState) (h : st.initted = true)
    (pr : Except Nat Nat) (lr : Except Nat (List String)) :
    playerctl_player_manager_initable_init st pr lr = (st, true) := by
  simp [playerctl_player_manager_initable_init, h]

/-- Claim C3: manage of NULL is a no-op emitting nothing; manage of a
handle already present by identity is a no-op emitting nothing; otherwise
manage inserts the handle (insertion-sorted under a configured comparator,
else at the front) and emits player-appeared with it exactly once, so a
second manage of the same handle changes nothing and emits nothing. -/
theorem c3_manage_contract :
    (∀ st : ManagerState, playerctl_player_manager_manage_player st none = (st, [])) ∧
    (∀ (st : ManagerState) (p : Player), p ∈ st.players →
        playerctl_player_manager_manage_player st (some p) = (st, [])) ∧
    (∀ (st : ManagerState) (p : Player), p ∉ st.players →
        (playerctl_player_manager_manage_player st (some p)).1.players =
          (match st.sort_func with
           | some f => g_list_insert_sorted_with_data st.players p f st.sort_data
           | none => p :: st.players) ∧
        (playerctl_player_manager_manage_player st (some p)).2 =
          [Effect.playerAppeared p] ∧
        playerctl_player_manager_manage_player
            (playerctl_player_manager_manage_player st (some p)).1 (some p) =
          ((playerctl_player_manager_manage_player st (some p)).1, [])) := by
  refine ⟨fun st => rfl, ?_, ?_⟩
  · intro st p hp
    have hc : player_list_contains st.players p = true :=
      (player_list_contains_iff _ _).mpr hp
    simp [playerctl_player_manager_manage_player, hc]
  · intro st p hp
    have hc : player_list_contains st.players p = false :=
      Bool.eq_false_iff.mpr (fun h => hp ((player_list_contains_iff _ _).mp h))
    cases hsf : st.sort_func with
    | none =>
      refine ⟨by simp [playerctl_player_manager_manage_player, hc, hsf], ?_, ?_⟩
      · simp [playerctl_player_manager_manage_player, hc, hsf]
      · have hmem : p ∈ p :: st.players := List.mem_cons_self p st.players
        have hc2 : player_list_contains (p :: st.players) p = true :=
          (player_list_contains_iff _ _).mpr hmem
        simp [playerctl_player_manager_manage_player, hc, hsf, hc2]
    | some f =>
      refine ⟨by simp [playerctl_player_manager_manage_player, hc, hsf], ?_, ?_⟩
      · simp [playerctl_player_manager_manage_player, hc, hsf]
      · have hmem : p ∈ g_list_insert_sorted_with_data st.players p f st.sort_data :=
          ((insert_sorted_perm st.players p f st.sort_data).mem_iff).mpr
            (List.mem_cons_self p st.players)
        have hc2 : player_list_contains
            (g_list_insert_sorted_with_data st.players p f st.sort_data) p = true :=
          (player_list_contains_iff _ _).mpr hmem
        simp [playerctl_player_manager_manage_player, hc, hsf, hc2]

/-- Claim C6: move_player_to_top of a present handle rewrites the order to
put the handle at the front with the other handles in their old relative
order, then re-sorts with the comparator when one is configured, emitting
nothing; of an absent handle it is a silent no-op; with no comparator and
collection A, B, C, moving C yields C, A, B. -/
theorem c6_move_to_top :
    (∀ (st : ManagerState) (p : Player), p ∈ st.players →
        (playerctl_player_manager_move_player_to_top st p).1.players =
          (match st.sort_func with
           | some f => g_list_sort_with_data (p :: st.players.erase p) f st.sort_data
           | none => p :: st.players.erase p) ∧
        (playerctl_player_manager_move_player_to_top st p).1.player_names =
          st.player_names ∧
        (playerctl_player_manager_move_player_to_top st p).2 = []) ∧
    (∀ (st : ManagerState) (p : Player), p ∉ st.players →
        playerctl_player_manager_move_player_to_top st p = (st, [])) ∧
    (∀ st : ManagerState, st.players = [exA, exB, exC] → st.sort_func = none →
        (playerctl_player_manager_move_player_to_top st exC).1.players =
          [exC, exA, exB]) := by
  refine ⟨?_, ?_, ?_⟩
  · intro st p hp
    cases hsf : st.sort_func with
    | none =>
      simp [playerctl_player_manager_move_player_to_top, find_remove_player_eq, hp, hsf]
    | some f =>
      simp [playerctl_player_manager_move_player_to_top, find_remove_player_eq, hp, hsf]
  · intro st p hp
    simp [playerctl_player_manager_move_player_to_top, find_remove_player_eq, hp]
  · intro st h hsf
    have hmem : exC ∈ st.players := by rw [h]; decide
    have herase : st.players.erase exC = [exA, exB] := by rw [h]; decide
    simp [playerctl_player_manager_move_player_to_top, find_remove_player_eq,
          hmem, hsf, herase]

/-- Claim C7: set_sort_func with a comparator stores the whole new sort
configuration unconditionally, invokes no destructor on the previous
context, and re-sorts the collection with the new comparator before
returning; with no prior comparator and collection A, B, C, a comparator
ordering by priorities B = 1, A = 2, C = 3 yields B, A, C on return. -/
theorem c7_set_sort_replaces_and_resorts :
    (∀ (st : ManagerState) (f : SortFn) (d nfy : Nat),
        playerctl_player_manager_set_sort_func st (some f) d nfy =
          some ({ st with sort_func := some f, sort_data := d, sort_notify := nfy,
                          players := g_list_sort_with_data st.players f d }, [])) ∧
    (∀ st : ManagerState, st.players = [exA, exB, exC] → st.sort_func = none →
        playerctl_player_manager_set_sort_func st (some examplePriorityCmp) 0 0 =
          some ({ st with sort_func := some examplePriorityCmp, sort_data := 0,
                          sort_notify := 0, players := [exB, exA, exC] }, [])) := by
  have hgen : ∀ (st : ManagerState) (f : SortFn) (d nfy : Nat),
      playerctl_player_manager_set_sort_func st (some f) d nfy =
        some ({ st with sort_func := some f, sort_data := d, sort_notify := nfy,
                        players := g_list_sort_with_data st.players f d }, []) := by
    intro st f d nfy
    match hps : st.players with
    | [] =>
      simp [playerctl_player_manager_set_sort_func, g_list_sort_with_data_nullable, hps,
            g_list_sort_with_data]
    | [x] =>
      simp [playerctl_player_manager_set_sort_func, g_list_sort_with_data_nullable, hps,
            g_list_sort_with_data]
    | x :: y :: rest =>
      simp [playerctl_player_manager_set_sort_func, g_list_sort_with_data_nullable, hps]
  refine ⟨hgen, ?_⟩
  intro st h _
  have hsorted : g_list_sort_with_data st.players examplePriorityCmp 0 = [exB, exA, exC] := by
    rw [h]
    simp [g_list_sort_with_data, List.mergeSort, examplePriorityCmp, examplePriority,
          exA, exB, exC]
  rw [hgen st examplePriorityCmp 0 0, hsorted]

/-- Claim C8 counterexample: set_sort_func called with a NULL comparator on
the two-handle collection of stAB hands the NULL pointer to
g_list_sort_with_data, which invokes it — a crash, not a normal
completion, refuting the claim that every such call completes normally. -/
theorem c8_set_sort_null_comparator_crashes :
    playerctl_player_manager_set_sort_func stAB none 0 0 = none := rfl

/-- Claim C8 (amended): set_sort_func completes normally for every state
whenever the comparator is non-null, and with a null comparator whenever
the collection holds at most one handle; with a null comparator and at
least two handles it crashes.  (manage, move_player_to_top and the two
read accessors are embedded as total functions, so their totality is
inherent in the model.) -/
theorem c8_totality_amended :
    (∀ (st : ManagerState) (f : SortFn) (d nfy : Nat),
        (playerctl_player_manager_set_sort_func st (some f) d nfy).isSome = true) ∧
    (∀ (st : ManagerState) (d nfy : Nat), st.players.length ≤ 1 →
        (playerctl_player_manager_set_sort_func st none d nfy).isSome = true) ∧
    (∀ (st : ManagerState) (d nfy : Nat), 2 ≤ st.players.length →
        playerctl_player_manager_set_sort_func st none d nfy = none) := by
  refine ⟨?_, ?_, ?_⟩
  · intro st f d nfy
    match hps : st.players with
    | [] =>
      simp [playerctl_player_manager_set_sort_func, g_list_sort_with_data_nullable, hps]
    | [x] =>
      simp [playerctl_player_manager_set_sort_func, g_list_sort_with_data_nullable, hps]
    | x :: y :: rest =>
      simp [playerctl_player_manager_set_sort_func, g_list_sort_with_data_nullable, hps]
  · intro st d nfy hlen
    match hps : st.players with
    | [] =>
      simp [playerctl_player_manager_set_sort_func, g_list_sort_with_data_nullable, hps]
    | [x] =>
      simp [playerctl_player_manager_set_sort_func, g_list_sort_with_data_nullable, hps]
    | x :: y :: rest =>
      rw [hps] at hlen
      simp at hlen
  · intro st d nfy hlen
    match hps : st.players with
    | [] => rw [hps] at hlen; simp at hlen
    | [x] => rw [hps] at hlen; simp at hlen
    | x :: y :: rest =>
      simp [playerctl_player_manager_set_sort_func, g_list_sort_with_data_nullable, hps]

/-- One NameOwnerChanged delivery preserves freedom from duplicates in
both the registry and the collection. -/
lemma dbus_preserves_nodup (st : ManagerState) (n : Notification)
    (h1 : st.player_names.Nodup) (h2 : st.players.Nodup) :
    (dbus_name_owner_changed_callback st n).1.player_names.Nodup ∧
    (dbus_name_owner_changed_callback st n).1.players.Nodup := by
  cases hpid : player_id_from_bus_name (some n.name) with
  | none =>
    simp only [dbus_name_owner_changed_callback, hpid]
    exact ⟨h1, h2⟩
  | some pid =>
    by_cases hv : n.new_owner = "" ∧ ¬ n.previous_owner = ""
    · by_cases hm : pid ∈ st.player_names
      · simp only [dbus_name_owner_changed_callback, hpid, if_pos hv,
                   find_remove_name_eq, if_pos hm, manager_remove_eq]
        exact ⟨h1.erase pid, h2.eraseP _⟩
      · simp only [dbus_name_owner_changed_callback, hpid, if_pos hv,
                   find_remove_name_eq, if_neg hm]
        exact ⟨h1, h2⟩
    · by_cases ha : n.previous_owner = "" ∧ ¬ n.new_owner = ""
      · by_cases hm : pid ∈ st.player_names
        · simp only [dbus_name_owner_changed_callback, hpid, if_neg hv, if_pos ha,
                     find_custom_str_eq, if_pos hm]
          exact ⟨h1, h2⟩
        · simp only [dbus_name_owner_changed_callback, hpid, if_neg hv, if_pos ha,
                     find_custom_str_eq, if_neg hm]
          exact ⟨List.nodup_cons.mpr ⟨hm, h1⟩, h2⟩
      · simp only [dbus_name_owner_changed_callback, hpid, if_neg hv, if_neg ha]
        exact ⟨h1, h2⟩

/-- One manage call preserves freedom from duplicates. -/
lemma manage_preserves_nodup (st : ManagerState) (p : Option Player)
    (h1 : st.player_names.Nodup) (h2 : st.players.Nodup) :
    (playerctl_player_manager_manage_player st p).1.player_names.Nodup ∧
    (playerctl_player_manager_manage_player st p).1.players.Nodup := by
  cases p with
  | none => exact ⟨h1, h2⟩
  | some p =>
    by_cases hc : player_list_contains st.players p = true
    · simp only [playerctl_player_manager_manage_player, hc, if_pos rfl]
      exact ⟨h1, h2⟩
    · have hp : p ∉ st.players := fun hm => hc ((player_list_contains_iff _ _).mpr hm)
      have hcf : player_list_contains st.players p = false := Bool.eq_false_iff.mpr hc
      cases hsf : st.sort_func with
      | none =>
        simp only [playerctl_player_manager_manage_player, hcf, hsf]
        exact ⟨h1, List.nodup_cons.mpr ⟨hp, h2⟩⟩
      | some f =>
        simp only [playerctl_player_manager_manage_player, hcf, hsf]
        refine ⟨h1, ?_⟩
        exact ((insert_sorted_perm st.players p f st.sort_data).nodup_iff).mpr
          (List.nodup_cons.mpr ⟨hp, h2⟩)

/-- One move_player_to_top call preserves freedom from duplicates. -/
lemma move_preserves_nodup (st : ManagerState) (p : Player)
    (h1 : st.player_names.Nodup) (h2 : st.players.Nodup) :
    (playerctl_player_manager_move_player_to_top st p).1.player_names.Nodup ∧
    (playerctl_player_manager_move_player_to_top st p).1.players.Nodup := by
  by_cases hm : p ∈ st.players
  · have hmoved : (p :: st.players.erase p).Nodup :=
      ((List.perm_cons_erase hm).nodup_iff).mp h2
    cases hsf : st.sort_func with
    | none =>
      simp only [playerctl_player_manager_move_player_to_top, find_remove_player_eq,
                 if_pos hm, hsf]
      exact ⟨h1, hmoved⟩
    | some f =>
      simp only [playerctl_player_manager_move_player_to_top, find_remove_player_eq,
                 if_pos hm, hsf]
      exact ⟨h1, (sort_with_data_perm _ f st.sort_data).nodup_iff.mpr hmoved⟩
  · simp only [playerctl_player_manager_move_player_to_top, find_remove_player_eq,
               if_neg hm]
    exact ⟨h1, h2⟩

/-- A completed set_sort_func call preserves freedom from duplicates. -/
lemma set_sort_preserves_nodup (st : ManagerState) (f : Option SortFn) (d nfy : Nat)
    (r : ManagerState × List Effect)
    (h1 : st.player_names.Nodup) (h2 : st.players.Nodup)
    (h : playerctl_player_manager_set_sort_func st f d nfy = some r) :
    r.1.player_names.Nodup ∧ r.1.players.Nodup := by
  cases hnull : g_list_sort_with_data_nullable st.players f d with
  | none =>
    rw [playerctl_player_manager_set_sort_func, hnull] at h
    exact absurd h (by simp)
  | some ps =>
    rw [playerctl_player_manager_set_sort_func, hnull] at h
    have hperm := sort_nullable_some_perm st.players ps f d hnull
    have hr : r = (({ st with sort_func := f, sort_data := d, sort_notify := nfy,
                              players := ps } : ManagerState), ([] : List Effect)) := by
      simp only [Option.some.injEq] at h
      exact h.symm
    rw [hr]
    exact ⟨h1, hperm.nodup_iff.mpr h2⟩

/-- Every successful action preserves freedom from duplicates. -/
lemma apply_action_preserves_nodup (st : ManagerState) (a : MgrAction)
    (st' : ManagerState)
    (h1 : st.player_names.Nodup) (h2 : st.players.Nodup)
    (h : apply_action st a = some st') :
    st'.player_names.Nodup ∧ st'.players.Nodup := by
  cases a with
  | notify n =>
    simp only [apply_action, Option.some.injEq] at h
    exact h ▸ dbus_preserves_nodup st n h1 h2
  | manage p =>
    simp only [apply_action, Option.some.injEq] at h
    exact h ▸ manage_preserves_nodup st p h1 h2
  | moveToTop p =>
    simp only [apply_action, Option.some.injEq] at h
    exact h ▸ move_preserves_nodup st p h1 h2
  | setSort f d nfy =>
    cases hss : playerctl_player_manager_set_sort_func st f d nfy with
    | none =>
      rw [apply_action, hss] at h
      exact absurd h (by simp)
    | some r =>
      rw [apply_action, hss] at h
      simp only [Option.some.injEq] at h
      exact h ▸ set_sort_preserves_nodup st f d nfy r h1 h2 hss

/-- Claim C2: from a duplicate-free state, after any sequence of
ownership-change notifications and manage / move_to_top / set_sort calls
that runs to completion, no identifier occurs twice in the Name Registry
and no handle occurs twice in the Player Collection. -/
theorem c2_no_duplicates_invariant (acts : List MgrAction) :
    ∀ st st' : ManagerState, st.player_names.Nodup → st.players.Nodup →
      run_actions st acts = some st' →
      st'.player_names.Nodup ∧ st'.players.Nodup := by
  induction acts with
  | nil =>
    intro st st' h1 h2 h
    simp only [run_actions, Option.some.injEq] at h
    exact h ▸ ⟨h1, h2⟩
  | cons a rest ih =>
    intro st st' h1 h2 h
    cases ha : apply_action st a with
    | none => rw [run_actions, ha] at h; exact absurd h (by simp)
    | some st1 =>
      rw [run_actions, ha] at h
      obtain ⟨g1, g2⟩ := apply_action_preserves_nodup st a st1 h1 h2 ha
      exact ih st1 st' g1 g2 h

/-- Witness for C1: the two-handle manager stAB receives a vanish of A. -/
theorem c1_witness :
    (dbus_name_owner_changed_callback stAB ⟨mprisPrefixVal ++ "A", ":1.2", ""⟩).1.player_names =
      stAB.player_names.erase "A" ∧
    (dbus_name_owner_changed_callback stAB ⟨mprisPrefixVal ++ "A", ":1.2", ""⟩).1.players =
      stAB.players.eraseP (fun p => p.player_id == "A") ∧
    (dbus_name_owner_changed_callback stAB ⟨mprisPrefixVal ++ "A", ":1.2", ""⟩).2 =
      (match stAB.players.find? (fun p => p.player_id == "A") with
       | some p => [Effect.playerVanished p, Effect.nameVanished ⟨"A"⟩]
       | none => [Effect.nameVanished ⟨"A"⟩]) :=
  c1_vanished_removes_then_emits_in_order stAB ⟨mprisPrefixVal ++ "A", ":1.2", ""⟩ "A"
    (by decide) rfl (by decide) (by decide)

/-- Witness for C2: the sample stimulus sequence from the empty manager
runs to completion and its result is duplicate-free. -/
theorem c2_witness :
    run_actions stEmpty c2ExampleActs = some c2ExampleResult ∧
    c2ExampleResult.player_names.Nodup ∧ c2ExampleResult.players.Nodup := by
  have hrun : run_actions stEmpty c2ExampleActs = some c2ExampleResult := rfl
  exact ⟨hrun, c2_no_duplicates_invariant c2ExampleActs stEmpty c2ExampleResult
    (by decide) (by decide) hrun⟩

/-- Witness for C3: manage of NULL, of an already-managed handle, and a
fresh manage followed by a repeated manage. -/
theorem c3_witness :
    playerctl_player_manager_manage_player stEmpty none = (stEmpty, []) ∧
    playerctl_player_manager_manage_player stAB (some exA) = (stAB, []) ∧
    ((playerctl_player_manager_manage_player stEmpty (some exA)).1.players =
        (match stEmpty.sort_func with
         | some f => g_list_insert_sorted_with_data stEmpty.players exA f stEmpty.sort_data
         | none => exA :: stEmpty.players) ∧
     (playerctl_player_manager_manage_player stEmpty (some exA)).2 =
        [Effect.playerAppeared exA] ∧
     playerctl_player_manager_manage_player
         (playerctl_player_manager_manage_player stEmpty (some exA)).1 (some exA) =
       ((playerctl_player_manager_manage_player stEmpty (some exA)).1, [])) :=
  ⟨c3_manage_contract.1 stEmpty,
   c3_manage_contract.2.1 stAB exA (by decide),
   c3_manage_contract.2.2 stEmpty exA (by decide)⟩

/-- Witness for C4: a fresh identifier B appears on the empty manager, and
the spec's spotify duplicate-appearance no-op. -/
theorem c4_witness :
    dbus_name_owner_changed_callback stEmpty ⟨mprisPrefixVal ++ "B", "", ":1.9"⟩ =
      ({ stEmpty with player_names := "B" :: stEmpty.player_names },
       [Effect.nameAppeared ⟨"B"⟩]) ∧
    dbus_name_owner_changed_callback spotifySt ⟨mprisPrefixVal ++ "spotify", "", ":1.5"⟩ =
      (spotifySt, []) :=
  ⟨(c4_appeared_handling.1 stEmpty ⟨mprisPrefixVal ++ "B", "", ":1.9"⟩ "B"
      (by decide) rfl (by decide)).1 (by decide),
   c4_appeared_handling.2 spotifySt rfl⟩

/-- Witness for C5: a bus name outside the naming convention, and an
owner hand-off on a tracked name. -/
theorem c5_witness :
    (player_id_from_bus_name (some "wrong.name") = none ↔
      (¬ mprisPrefixVal.data.isPrefixOf ("wrong.name" : String).data = true ∨
       ("wrong.name" : String).data.length ≤ mprisPrefixVal.data.length)) ∧
    dbus_name_owner_changed_callback stAB ⟨"wrong.name", "", ":1.5"⟩ = (stAB, []) ∧
    dbus_name_owner_changed_callback stAB ⟨mprisPrefixVal ++ "A", ":1.2", ":1.3"⟩ =
      (stAB, []) :=
  ⟨c5_irrelevant_notifications.1 "wrong.name",
   c5_irrelevant_notifications.2.1 stAB ⟨"wrong.name", "", ":1.5"⟩ (by decide),
   c5_irrelevant_notifications.2.2 stAB ⟨mprisPrefixVal ++ "A", ":1.2", ":1.3"⟩
     (Or.inr ⟨by decide, by decide⟩)⟩

/-- Witness for C6: moving C to the top of the A, B, C collection, and the
silent no-op on a handle that is not managed. -/
theorem c6_witness :
    ((playerctl_player_manager_move_player_to_top stABC exC).1.players =
        (match stABC.sort_func with
         | some f => g_list_sort_with_data (exC :: stABC.players.erase exC) f stABC.sort_data
         | none => exC :: stABC.players.erase exC) ∧
     (playerctl_player_manager_move_player_to_top stABC exC).1.player_names =
        stABC.player_names ∧
     (playerctl_player_manager_move_player_to_top stABC exC).2 = []) ∧
    playerctl_player_manager_move_player_to_top stEmpty exA = (stEmpty, []) ∧
    (playerctl_player_manager_move_player_to_top stABC exC).1.players = [exC, exA, exB] :=
  ⟨c6_move_to_top.1 stABC exC (by decide),
   c6_move_to_top.2.1 stEmpty exA (by decide),
   c6_move_to_top.2.2 stABC rfl rfl⟩

/-- Witness for C7: the priority comparator re-orders the A, B, C
collection to B, A, C on return from set_sort_func. -/
theorem c7_witness :
    playerctl_player_manager_set_sort_func stABC (some examplePriorityCmp) 0 0 =
      some ({ stABC with sort_func := some examplePriorityCmp, sort_data := 0,
                         sort_notify := 0, players := [exB, exA, exC] }, []) :=
  c7_set_sort_replaces_and_resorts.2 stABC rfl rfl

/-- Witness for C8 (amended): a comparator call always completes, a null
comparator completes on an empty collection, and a null comparator on the
two-handle collection crashes. -/
theorem c8_witness :
    (playerctl_player_manager_set_sort_func stABC (some examplePriorityCmp) 1 2).isSome =
      true ∧
    (playerctl_player_manager_set_sort_func stEmpty none 0 0).isSome = true ∧
    playerctl_player_manager_set_sort_func stAB none 3 4 = none :=
  ⟨c8_totality_amended.1 stABC examplePriorityCmp 1 2,
   c8_totality_amended.2.1 stEmpty 0 0 (by decide),
   c8_totality_amended.2.2 stAB 3 4 (by decide)⟩

/-- Witness for C9: a vanish of A while A is not registered leaves the
manager alone even though a managed handle with player-id A exists. -/
theorem c9_witness :
    dbus_name_owner_changed_callback stGhost ⟨mprisPrefixVal ++ "A", ":1.2", ""⟩ =
      (stGhost, []) :=
  c9_vanished_untracked_is_silent stGhost ⟨mprisPrefixVal ++ "A", ":1.2", ""⟩ "A"
    (by decide) rfl (by decide) (by decide)

/-- Witness for C10: re-running init on an initted manager ignores even
failing bus results and reports success without mutation. -/
theorem c10_witness :
    playerctl_player_manager_initable_init stAB (Except.error 7) (Except.error 8) =
      (stAB, true) :=
  c10_init_idempotent stAB rfl (Except.error 7) (Except.error 8)

end PlayerctlMgr
